import Mathlib

set_option maxHeartbeats 1000000

/-!
Verification of the layered address-space model and ELF core-dump codec of
OpenCoreAnalysisKit.

The sections below shallowly embed, in order:
  * the Backing Store / Memory Region / Address Space read model
    (spec sections 3 and 4.1-4.3; the priority order is also documented in
    the source at src/parser/command/core/cmd_read.cpp, ReadCommand::usage:
    "Priority: overlay > mmap > origin");
  * the `read` command pipeline of ReadCommand::main
    (src/parser/command/core/cmd_read.cpp lines 29-130): address masking,
    end clamping against the owning load block, the 16-byte allocation
    rounding, and the silent handling of failed reads;
  * the core-dump synthesizer (lp64::OpencoreImpl, declared in
    src/parser/command/remote/opencore/lp64/opencore.h; its definitions are
    not part of the provided sources, so they are modelled from the spec);
  * the duplicate-mapping tie-break of ParseProcessMapsVma (modelled from
    the spec, same reason);
  * the `top` command statistics loop (src/parser/command/android/cmd_top.cpp,
    TopCommand::main lines 214-252 and TopCommand::prepare lines 109-114).
-/

/-! ## Backing stores and memory regions -/

/-- Kind of a backing store for a memory region: bytes embedded in the core
file (Origin), bytes re-read from the mapped shared object on disk
(FileMmap), or operator-applied patches (Overlay). Spec section 3. -/
inductive StoreKind where
  | Origin
  | FileMmap
  | Overlay
deriving DecidableEq, Repr

/-- Result of resolving a single backing store (spec section 4.1):
bytes on success, Unavailable when the store cannot serve the range
(non-fatal, the caller falls through to the next store), Corrupt when the
hosting core file is truncated. -/
inductive StoreResult where
  | ok (bs : List Nat)
  | unavailable
  | corrupt
deriving DecidableEq, Repr

/-- Modelled from the spec: a single backing store (spec section 4.1,
`resolve(offset, length) -> bytes | Unavailable`). The LoadBlock backing
machinery itself is not among the provided sources; only its consumers
(cmd_read.cpp) and the spec describe it. -/
structure BackingStore where
  kind : StoreKind
  resolve : Nat → Nat → StoreResult

/-- Read mode of a region read. Mirrors the `read_opt` values selected in
ReadCommand::main (src/parser/command/core/cmd_read.cpp lines 37, 63-71):
OPT_READ_ALL (default), OPT_READ_OR (--origin), OPT_READ_MMAP (--mmap),
OPT_READ_OVERLAY (--overlay). -/
inductive ReadMode where
  | All
  | OriginOnly
  | FileMmapOnly
  | OverlayOnly
deriving DecidableEq, Repr

/-- Which store kinds a read mode consults (spec section 4.2). -/
def modeAllows : ReadMode → StoreKind → Bool
  | .All, _ => true
  | .OriginOnly, .Origin => true
  | .FileMmapOnly, .FileMmap => true
  | .OverlayOnly, .Overlay => true
  | _, _ => false

/-- Result of a region or address-space read: bytes, a Miss (expected,
not an error), or Corrupt. Spec section 7. -/
inductive ReadResult where
  | bytes (bs : List Nat)
  | miss
  | corrupt
deriving DecidableEq, Repr

/-- First-success-wins scan over the store results, in priority order.
Unavailable results are skipped; Corrupt propagates. Spec sections 4.1-4.2. -/
def firstOk : List StoreResult → ReadResult
  | [] => .miss
  | .ok bs :: _ => .bytes bs
  | .corrupt :: _ => .corrupt
  | .unavailable :: rest => firstOk rest

/-- Modelled from the spec: one contiguous virtual-memory range with its
ordered candidate backing stores, highest priority first
(Overlay > FileMmap > Origin, spec section 3). The corresponding LoadBlock
class is not among the provided sources. -/
structure MemoryRegion where
  vaddr : Nat
  size : Nat
  flags : Nat
  stores : List BackingStore

/-- Modelled from the spec: `read(offset, length, mode) -> bytes | Miss`
(spec section 4.2). Returns Miss if offset+length exceeds the region's
declared size; otherwise tries the stores the mode allows, in priority
order, first success wins. -/
def MemoryRegion.read (r : MemoryRegion) (off len : Nat) (mode : ReadMode) : ReadResult :=
  if r.size < off + len then .miss
  else firstOk ((r.stores.filter (fun s => modeAllows mode s.kind)).map
    (fun s => s.resolve off len))

/-! ## Address space -/

/-- The full ordered collection of memory regions for a target, together
with the architecture's valid-address-bits mask (spec section 3;
CoreApi::GetVabitsMask in src/parser/command/core/cmd_read.cpp line 34). -/
structure AddressSpace where
  regions : List MemoryRegion
  vabitsMask : Nat

/-- Containment test of an address in a region's range [vaddr, vaddr+size). -/
def containsAddr (r : MemoryRegion) (a : Nat) : Bool :=
  decide (r.vaddr ≤ a) && decide (a < r.vaddr + r.size)

/-- Modelled from the spec: CoreApi::FindLoadBlock — lookup of the owning
region by containment over the ordered region list (spec section 4.3;
called at src/parser/command/core/cmd_read.cpp line 81). Its definition is
not among the provided sources. -/
def findLoadBlock (s : AddressSpace) (a : Nat) : Option MemoryRegion :=
  s.regions.find? (fun r => containsAddr r a)

/-- Modelled from the spec: CoreApi::Read — `read(address, length, mode)`
resolves the owning region and clamps the length to the region's remaining
extent when the request would cross the region boundary; a read never spans
two regions (spec section 4.3). The CoreApi implementation is not among the
provided sources. -/
def AddressSpace.read (s : AddressSpace) (addr len : Nat) (mode : ReadMode) : ReadResult :=
  match findLoadBlock s addr with
  | none => .miss
  | some r => r.read (addr - r.vaddr) (min len (r.size - (addr - r.vaddr))) mode

/-! ## The read command pipeline (ReadCommand::main, cmd_read.cpp) -/

/-- RoundUp from common/bit.h as used at cmd_read.cpp line 86: round `x` up
to the next multiple of `n` (the source uses the power-of-two form
`(x + n - 1) & ~(n - 1)`, identical to this for the powers of two it is
called with). -/
def roundUpN (x n : Nat) : Nat := ((x + n - 1) / n) * n

/-- End clamping of ReadCommand::main, cmd_read.cpp lines 81-83:
`if (block && end > (block->vaddr() + block->size()))
   end = block->vaddr() + block->size();` -/
def cmdClampEnd (s : AddressSpace) (b e : Nat) : Nat :=
  match findLoadBlock s b with
  | some blk => if blk.vaddr + blk.size < e then blk.vaddr + blk.size else e
  | none => e

/-- Word count of ReadCommand::main, cmd_read.cpp line 86
("always alloc align 0x10"):
`int count = RoundUp(RoundUp(end - begin, 8) / 8, 2);` -/
def cmdCount (b e : Nat) : Nat := roundUpN (roundUpN (e - b) 8 / 8) 2

/-- Observable outcome of one `read` command invocation: the value returned
by ReadCommand::main, how many hexdump lines were printed, how many bytes
were requested from the core API, and whether an error was logged. -/
structure CmdResult where
  exitCode : Nat
  linesPrinted : Nat
  bytesRead : Nat
  errorLogged : Bool
deriving DecidableEq, Repr

/-- Embedding of ReadCommand::main (cmd_read.cpp lines 29-130), default
hexdump path: mask `begin` (line 34) and `end` (line 58) with the
valid-address-bits mask, clamp `end` against the owning load block
(lines 81-83), compute the 16-byte-aligned allocation count (line 86);
for an empty range fall back to the single-value GetReal path
(lines 87-103), otherwise read `count * 8` bytes (line 110) and print
`count / 2` hexdump lines (lines 114-117). A null / failed read prints
nothing, logs no error and still returns 0 (lines 89, 110, 129). -/
def readCmdRun (s : AddressSpace) (a e0 : Nat) (mode : ReadMode) : CmdResult :=
  let b := a &&& s.vabitsMask
  let e1 := e0 &&& s.vabitsMask
  let e := cmdClampEnd s b e1
  let count := cmdCount b e
  if e ≤ b ∨ count = 0 then
    match s.read b 8 mode with
    | .bytes _ => ⟨0, 1, 8, false⟩
    | _ => ⟨0, 0, 0, false⟩
  else
    match s.read b (count * 8) mode with
    | .bytes _ => ⟨0, count / 2, count * 8, false⟩
    | _ => ⟨0, 0, 0, false⟩

/-! ## Core-dump synthesizer (lp64::OpencoreImpl)

Only the class declaration of lp64::OpencoreImpl is among the provided
sources (src/parser/command/remote/opencore/lp64/opencore.h); the member
definitions are modelled from the spec, sections 3 and 4.4-4.6. -/

/-- One mapping discovered from the live target by the Process Snapshot
Reader: virtual address, captured content bytes (one per byte of the
mapping), optional backing file with its file offset, and permission
flags. Spec sections 3 and 4.4. -/
structure VirtualMemoryArea where
  vaddr : Nat
  content : List Nat
  file : Option String
  fileOffset : Nat
  flags : Nat
deriving DecidableEq, Repr

/-- Per-region inclusion decision of the VMA Filter Policy
(spec section 4.5). -/
inductive Classification where
  | Include
  | Exclude
  | TruncateZero
deriving DecidableEq, Repr

/-- One captured thread: id and register-set blob (spec section 4.4). -/
structure ThreadRecord where
  tid : Nat
  regs : List Nat
deriving DecidableEq, Repr

/-- One entry of the NT_FILE mapped-file table (spec section 3 and
glossary). -/
structure NtEntry where
  startAddr : Nat
  endAddr : Nat
  fileOfs : Nat
  name : String
deriving DecidableEq, Repr

/-- A sub-record of the NOTE segment: per-thread PRSTATUS, the auxiliary
vector, or the NT_FILE mapped-file table (spec section 3). -/
inductive NoteRecord where
  | prstatus (tid : Nat) (regs : List Nat)
  | auxvRec (entries : List (Nat × Nat))
  | ntfile (entries : List NtEntry)
deriving DecidableEq, Repr

/-- A mapping has an associated backing file. -/
def hasFile (v : VirtualMemoryArea) : Bool := v.file.isSome

/-- Modelled from the spec: the NT_FILE table rows built by
lp64::OpencoreImpl::ParserNtFile / WriteNtFile (declared in opencore.h
lines 38 and 53, definitions not among the provided sources): one entry
per region that has an associated file, independent of its Include /
Exclude classification (spec section 4.6, NoteWritten). -/
def ntFileEntries (vmas : List VirtualMemoryArea) : List NtEntry :=
  (vmas.filter hasFile).map (fun v =>
    ⟨v.vaddr, v.vaddr + v.content.length, v.fileOffset, v.file.getD ""⟩)

/-- Modelled from the spec: lp64::OpencoreImpl::WriteCorePrStatus (declared
in opencore.h line 60, definition not among the provided sources) — one
process-status record per captured thread, in snapshot enumeration order. -/
def writeCorePrStatus (threads : List ThreadRecord) : List NoteRecord :=
  threads.map (fun t => .prstatus t.tid t.regs)

/-- Modelled from the spec: lp64::OpencoreImpl::WriteCoreAUXV (declared in
opencore.h line 52) — the auxiliary-vector record. -/
def writeCoreAuxv (auxv : List (Nat × Nat)) : List NoteRecord := [.auxvRec auxv]

/-- Modelled from the spec: lp64::OpencoreImpl::WriteNtFile (declared in
opencore.h line 53) — the mapped-file table record. -/
def writeNtFile (vmas : List VirtualMemoryArea) : List NoteRecord :=
  [.ntfile (ntFileEntries vmas)]

/-- Modelled from the spec: serialized size of one note sub-record in the
standard Elf64 note encoding (note header, "CORE" name padding, descriptor).
The byte-layout code (Elf64_Nhdr writes) is not among the provided sources;
only the total is used, to place the LOAD segments. -/
def recordSize : NoteRecord → Nat
  | .prstatus _ regs => 12 + 8 + 112 + 8 * regs.length
  | .auxvRec es => 12 + 8 + 16 * es.length
  | .ntfile es => 12 + 8 + 16 + es.foldl (fun a e => a + 32 + (e.name.length + 1)) 0

/-- Core-file page alignment (spec section 3: every PT_LOAD file offset is
0x1000-aligned). -/
def pageSize : Nat := 0x1000

/-- Round `x` up to the next multiple of the alignment `a`. -/
def alignUp (x a : Nat) : Nat := ((x + a - 1) / a) * a

/-- The raw facts pulled from the Process Snapshot Reader: captured
threads, auxiliary vector, and discovered mappings, in enumeration order
(spec section 4.4). -/
structure Snapshot where
  threads : List ThreadRecord
  auxv : List (Nat × Nat)
  vmas : List VirtualMemoryArea
deriving Repr

/-- Modelled from the spec: the NOTE segment contents, emitted in fixed
order — per-thread PRSTATUS records, then AUXV, then NT_FILE
(spec section 4.6, NoteWritten). -/
def noteSegmentRecords (snap : Snapshot) : List NoteRecord :=
  writeCorePrStatus snap.threads ++ writeCoreAuxv snap.auxv ++ writeNtFile snap.vmas

/-- Unpadded size of the NOTE segment. -/
def noteRawSize (snap : Snapshot) : Nat :=
  (noteSegmentRecords snap).foldl (fun a r => a + recordSize r) 0

/-- Modelled from the spec: lp64::OpencoreImpl::AlignNoteSegment (declared
in opencore.h line 54) — the NOTE segment is padded to the next segment
alignment boundary. -/
def noteSegSize (snap : Snapshot) : Nat := alignUp (noteRawSize snap) pageSize

/-- One Elf64 program header, restricted to the fields the claims are
about (offset, virtual address, file size, memory size, flags). -/
structure Phdr where
  p_offset : Nat
  p_vaddr : Nat
  p_filesz : Nat
  p_memsz : Nat
  p_flags : Nat
deriving DecidableEq, Repr

/-- Size of an Elf64 identification header. -/
def ehdrSize : Nat := 64

/-- Size of one Elf64 program header. -/
def phdrSize : Nat := 56

/-- Modelled from the spec: LOAD segment layout and payload emission of the
synthesizer (spec section 4.6, LayoutComputed / ProgramHeadersWritten /
SegmentsWritten; lp64::OpencoreImpl::WriteCoreLoadSegment is declared in
opencore.h line 55, its definition is not among the provided sources).
Given the running file offset and the remaining mappings, produce the
program headers of the non-Excluded regions in order and the payload bytes
from the running offset onward: an Include region gets a page-aligned file
offset, file size equal to its extent, and its content bytes, preceded by
zero padding up to its offset; a TruncateZero region gets file size 0 and
no bytes; an Excluded region gets neither header nor bytes. -/
def synthSegments (cl : VirtualMemoryArea → Classification) :
    Nat → List VirtualMemoryArea → List Phdr × List Nat
  | _, [] => ([], [])
  | off, v :: rest =>
    match cl v with
    | .Exclude => synthSegments cl off rest
    | .TruncateZero =>
      (⟨0, v.vaddr, 0, v.content.length, v.flags⟩ :: (synthSegments cl off rest).1,
       (synthSegments cl off rest).2)
    | .Include =>
      (⟨alignUp off pageSize, v.vaddr, v.content.length, v.content.length, v.flags⟩ ::
         (synthSegments cl (alignUp off pageSize + v.content.length) rest).1,
       List.replicate (alignUp off pageSize - off) 0 ++ v.content ++
         (synthSegments cl (alignUp off pageSize + v.content.length) rest).2)

/-- Number of program headers emitted for the mappings: one per
non-Excluded region (spec section 4.6, LayoutComputed). -/
def countLoadPhdrs (cl : VirtualMemoryArea → Classification)
    (vmas : List VirtualMemoryArea) : Nat :=
  (vmas.filter (fun v => cl v != Classification.Exclude)).length

/-- File offset at which the LOAD payload area begins: identification
header, program-header table (1 NOTE + the LOAD headers), then the padded
NOTE segment (spec section 3: the NOTE segment precedes all LOAD segments
in file-offset order). -/
def headerLen (snap : Snapshot) (cl : VirtualMemoryArea → Classification) : Nat :=
  ehdrSize + phdrSize * (1 + countLoadPhdrs cl snap.vmas) + noteSegSize snap

/-- A synthesized core file: the program-header table, the NOTE segment
records and padded size, and the flat file bytes. The header area's byte
encoding of ehdr / phdr / note structures is kept abstract (zero bytes of
the correct total length): the round-trip claims only concern the LOAD
payload region of the file. -/
structure CoreFile where
  phdrs : List Phdr
  noteRecs : List NoteRecord
  noteSize : Nat
  bytes : List Nat
deriving Repr

/-- Modelled from the spec: lp64::OpencoreImpl::DoCoredump (declared in
opencore.h line 33, definition not among the provided sources) — capture
the snapshot, classify every mapping, lay out and emit the core file
(spec section 4.6). The NOTE segment is built from all mappings regardless
of their classification; the LOAD payloads only from Include regions. -/
def doCoredump (snap : Snapshot) (cl : VirtualMemoryArea → Classification) : CoreFile :=
  { phdrs := (synthSegments cl (headerLen snap cl) snap.vmas).1
    noteRecs := noteSegmentRecords snap
    noteSize := noteSegSize snap
    bytes := List.replicate (headerLen snap cl) 0 ++
      (synthSegments cl (headerLen snap cl) snap.vmas).2 }

/-- Modelled from the spec: the Address Space loader's region for one
PT_LOAD program header of an existing core file — Origin store resolving
from the core file's bytes at the header's file offset, Unavailable past
the declared file size (spec sections 2 and 4.1). -/
def regionOfPhdr (fileBytes : List Nat) (p : Phdr) : MemoryRegion :=
  { vaddr := p.p_vaddr
    size := p.p_memsz
    flags := p.p_flags
    stores := [ { kind := .Origin
                  resolve := fun off len =>
                    if off + len ≤ p.p_filesz then
                      .ok ((fileBytes.drop (p.p_offset + off)).take len)
                    else .unavailable } ] }

/-- Modelled from the spec: the Address Space parser for an existing core
file — one memory region per PT_LOAD program header, Origin-backed by the
file's bytes (spec section 2, inspection flow). -/
def parseCore (f : CoreFile) (mask : Nat) : AddressSpace :=
  { regions := f.phdrs.map (regionOfPhdr f.bytes), vabitsMask := mask }

/-! ## Duplicate-mapping tie-break (ParseProcessMapsVma) -/

/-- One raw line of the target's maps as fed to the synthesizer: start
address and size. -/
structure RawMap where
  start : Nat
  size : Nat
deriving DecidableEq, Repr

/-- Modelled from the spec: one step of the duplicate-start tie-break in
lp64::OpencoreImpl::ParseProcessMapsVma (declared in opencore.h line 36,
definition not among the provided sources): when a mapping repeats an
already-collected start address, the one with the larger size is retained,
the other is dropped, and a WARNING note is counted — processing continues
(non-fatal). Spec section 4.6, tie-break rule. -/
def dedupStep (acc : List RawMap × Nat) (m : RawMap) : List RawMap × Nat :=
  match acc.1.find? (fun w => w.start == m.start) with
  | some w =>
    if w.size < m.size then
      (acc.1.map (fun x => if x.start == m.start then m else x), acc.2 + 1)
    else (acc.1, acc.2 + 1)
  | none => (acc.1 ++ [m], acc.2)

/-- Modelled from the spec: the mapping-collection pass of
ParseProcessMapsVma over the raw maps, returning the retained mappings and
the number of WARNING notes emitted for dropped duplicates. -/
def parseProcessMapsVma (ms : List RawMap) : List RawMap × Nat :=
  ms.foldl dedupStep ([], 0)

/-! ## The top command (TopCommand, cmd_top.cpp) -/

/-- Per-class statistics accumulated by TopCommand::main
(struct TopCommand::Pair): allocation count, shallow size, native size. -/
structure TopPair where
  alloc_count : Nat
  shallow_size : Nat
  native_size : Nat
deriving DecidableEq, Repr

/-- Sort key selected by the -a / -s / -n options (ORDERBY_ALLOC,
ORDERBY_SHALLOW, ORDERBY_NATIVE in cmd_top.cpp lines 68-76). -/
inductive OrderBy where
  | byAlloc
  | byShallow
  | byNative
deriving DecidableEq, Repr

/-- The metric compared by the selection loop for the chosen order
(cmd_top.cpp lines 219-238). -/
def orderMetric : OrderBy → TopPair → Nat
  | .byAlloc, p => p.alloc_count
  | .byShallow, p => p.shallow_size
  | .byNative, p => p.native_size

/-- The all-zero statistics record cur_max_pair is reset to
(cmd_top.cpp lines 166-170 and 251). -/
def zeroPair : TopPair := ⟨0, 0, 0⟩

/-- One comparison step of the inner scan of TopCommand::main
(cmd_top.cpp lines 215-239): the candidate replaces the running maximum
when its metric is greater than or equal (`>=`, so later ties win). -/
def selStep (ord : OrderBy) (best kv : Nat × TopPair) : Nat × TopPair :=
  if orderMetric ord best.2 ≤ orderMetric ord kv.2 then kv else best

/-- The inner scan over the class map in key order, starting from the
reset running maximum (class pointer 0, zero statistics). -/
def selectMax (ord : OrderBy) (init : Nat × TopPair) (l : List (Nat × TopPair)) :
    Nat × TopPair :=
  l.foldl (selStep ord) init

/-- Embedding of the printing loop of TopCommand::main (cmd_top.cpp lines
214-252): up to NUM iterations; each iteration scans the remaining class
map for the maximal metric, stops when the selected class pointer is 0
(line 241), otherwise prints the row and erases the class from the map
(line 249) before the next selection. The class map is a key-ordered
association list from class pointer to statistics. -/
def topRows (ord : OrderBy) : Nat → List (Nat × TopPair) → List (Nat × TopPair)
  | 0, _ => []
  | n + 1, classes =>
    let best := selectMax ord (0, zeroPair) classes
    if best.1 = 0 then []
    else best :: topRows ord n (classes.filter (fun kv => kv.1 != best.1))

/-- Embedding of the object-category flag computation of
TopCommand::prepare (cmd_top.cpp lines 43, 80-91 and 109-114), with the
four Android::EACH_*_OBJECTS constants as parameters: OR in the constant
for each --app / --zygote / --image / --fake flag given; if none was
given, enable all four categories. -/
def objEachFlags (cApp cZygote cImage cFake : Nat)
    (fApp fZygote fImage fFake : Bool) : Nat :=
  let f1 := if fApp then 0 ||| cApp else 0
  let f2 := if fZygote then f1 ||| cZygote else f1
  let f3 := if fImage then f2 ||| cImage else f2
  let f4 := if fFake then f3 ||| cFake else f3
  if f4 = 0 then (((0 ||| cApp) ||| cZygote) ||| cImage) ||| cFake else f4

/-! ## Concrete instances used by the witnesses -/

/-- Overlay store of the priority-order example, resolving to bytes [1]. -/
def exC1o : BackingStore := ⟨.Overlay, fun _ _ => .ok [1]⟩

/-- FileMmap store of the priority-order example, resolving to bytes [2]. -/
def exC1f : BackingStore := ⟨.FileMmap, fun _ _ => .ok [2]⟩

/-- Origin store of the priority-order example, resolving to bytes [3]. -/
def exC1g : BackingStore := ⟨.Origin, fun _ _ => .ok [3]⟩

/-- Region of the priority-order example, with all three stores present
and disagreeing. -/
def exC1region : MemoryRegion := ⟨0x1000, 0x100, 5, [exC1o, exC1f, exC1g]⟩

/-- First mapping of the round-trip example. -/
def exC2vmaA : VirtualMemoryArea := ⟨0x1000, [0xAA, 0xBB], none, 0, 5⟩

/-- Second mapping of the round-trip example, file-backed. -/
def exC2vmaB : VirtualMemoryArea :=
  ⟨0x3000, [1, 2, 3], some "/system/lib64/libc.so", 0, 5⟩

/-- Snapshot of the round-trip example: one thread, one auxv entry, two
mappings. -/
def exC2snap : Snapshot := ⟨[⟨1, [0, 0]⟩], [(6, 0x1000)], [exC2vmaA, exC2vmaB]⟩

/-- The include-everything classification policy. -/
def exC2cl : VirtualMemoryArea → Classification := fun _ => Classification.Include

/-- Origin store of the boundary-clamp example: region bytes are 0xAA
repeated, Unavailable past the declared size. -/
def exC3store : BackingStore :=
  ⟨.Origin, fun off len =>
    if off + len ≤ 0x1000 then .ok (List.replicate len 0xAA) else .unavailable⟩

/-- The single region [0x1000, 0x2000) of the boundary-clamp example. -/
def exC3region : MemoryRegion := ⟨0x1000, 0x1000, 4, [exC3store]⟩

/-- Address space of the boundary-clamp example. -/
def exC3space : AddressSpace := ⟨[exC3region], 0xFFFFFFFFFF⟩

/-- First-priority store of the fall-through example, always Unavailable. -/
def exC6s1 : BackingStore := ⟨.Overlay, fun _ _ => .unavailable⟩

/-- Second-priority store of the fall-through example, resolving to
bytes [7, 7]. -/
def exC6s2 : BackingStore := ⟨.FileMmap, fun _ _ => .ok [7, 7]⟩

/-- Region of the fall-through example. -/
def exC6region : MemoryRegion := ⟨0, 0x100, 6, [exC6s1, exC6s2]⟩

/-- Empty address space: every read is a Miss. -/
def exC6space : AddressSpace := ⟨[], 0xFF⟩

/-- Address space of the masking example, with an 8-bit pointer mask. -/
def exC7space : AddressSpace := ⟨[], 0xFF⟩

/-! ## Helper lemmas -/

/-- Rounding up never decreases the value. -/
lemma le_alignUp (x a : Nat) (ha : 0 < a) : x ≤ alignUp x a := by
  unfold alignUp
  rw [Nat.mul_comm]
  have h := Nat.div_add_mod (x + a - 1) a
  have h2 : (x + a - 1) % a < a := Nat.mod_lt _ ha
  omega

/-! ## Claim theorems -/

/-- Claim C1: for a region with Overlay, FileMmap and Origin stores all
present (highest priority first) and disagreeing, a read in mode All
returns the Overlay bytes (stores tried in order, first success wins),
and a read in mode OriginOnly returns the Origin bytes. -/
theorem claim_C1 (r : MemoryRegion) (o f g : BackingStore)
    (bO bF bG : List Nat) (off len : Nat)
    (hs : r.stores = [o, f, g])
    (hok : o.kind = .Overlay) (hfk : f.kind = .FileMmap) (hgk : g.kind = .Origin)
    (hro : o.resolve off len = .ok bO) (hrf : f.resolve off len = .ok bF)
    (hrg : g.resolve off len = .ok bG)
    (hd1 : bO ≠ bF) (hd2 : bO ≠ bG) (hd3 : bF ≠ bG)
    (hlen : off + len ≤ r.size) :
    r.read off len .All = .bytes bO ∧ r.read off len .OriginOnly = .bytes bG := by
  have hnot : ¬ (r.size < off + len) := Nat.not_lt.mpr hlen
  constructor
  · simp only [MemoryRegion.read, if_neg hnot, hs]
    simp [modeAllows, hok, hfk, hgk, hro, hrf, hrg, firstOk]
  · simp only [MemoryRegion.read, if_neg hnot, hs]
    simp [modeAllows, hok, hfk, hgk, hrg, firstOk]

/-- Witness for C1 at a concrete region whose three stores resolve to
[1], [2], [3]. -/
theorem claim_C1_witness :
    exC1region.read 0 1 .All = .bytes [1] ∧
    exC1region.read 0 1 .OriginOnly = .bytes [3] :=
  claim_C1 exC1region exC1o exC1f exC1g [1] [2] [3] 0 1
    rfl rfl rfl rfl rfl rfl rfl (by decide) (by decide) (by decide) (by decide)

/-- Claim C5: for a pair of snapshot mappings reporting the same start
address, the synthesizer retains the one with the larger size and drops
the other, counting one non-fatal WARNING note — in either arrival
order. -/
theorem claim_C5 (m₁ m₂ : RawMap) (hstart : m₁.start = m₂.start)
    (hlt : m₁.size < m₂.size) :
    parseProcessMapsVma [m₁, m₂] = ([m₂], 1) ∧
    parseProcessMapsVma [m₂, m₁] = ([m₂], 1) := by
  have hnlt : ¬ (m₂.size < m₁.size) := Nat.not_lt.mpr (Nat.le_of_lt hlt)
  constructor
  · simp [parseProcessMapsVma, dedupStep, hstart, hlt]
  · simp [parseProcessMapsVma, dedupStep, hstart, hnlt]

/-- Witness for C5: mappings at 0x5000 with sizes 0 and 0x1000; the
0x1000 one is kept and one warning is counted. -/
theorem claim_C5_witness :
    parseProcessMapsVma [⟨0x5000, 0⟩, ⟨0x5000, 0x1000⟩] = ([⟨0x5000, 0x1000⟩], 1) ∧
    parseProcessMapsVma [⟨0x5000, 0x1000⟩, ⟨0x5000, 0⟩] = ([⟨0x5000, 0x1000⟩], 1) :=
  claim_C5 ⟨0x5000, 0⟩ ⟨0x5000, 0x1000⟩ rfl (by norm_num)

/-- Claim C6: an Unavailable result from one backing store is swallowed
inside the memory region and the next-priority store is tried; a Miss from
the Address Space is handed back by the read command as an ordinary
result — nothing printed, no error logged, return value 0. -/
theorem claim_C6 (r : MemoryRegion) (s₁ s₂ : BackingStore) (bs : List Nat)
    (off len : Nat) (mode : ReadMode) (sp : AddressSpace) (a e0 : Nat)
    (hs : r.stores = [s₁, s₂])
    (h1 : modeAllows mode s₁.kind = true)
    (h2 : modeAllows mode s₂.kind = true)
    (hr1 : s₁.resolve off len = .unavailable)
    (hr2 : s₂.resolve off len = .ok bs)
    (hlen : off + len ≤ r.size)
    (hmiss : ∀ l, sp.read (a &&& sp.vabitsMask) l mode = .miss) :
    r.read off len mode = .bytes bs ∧
    readCmdRun sp a e0 mode = ⟨0, 0, 0, false⟩ := by
  constructor
  · have hnot : ¬ (r.size < off + len) := Nat.not_lt.mpr hlen
    simp only [MemoryRegion.read, if_neg hnot, hs]
    simp [h1, h2, hr1, hr2, firstOk]
  · unfold readCmdRun
    simp only [hmiss]
    split <;> rfl

/-- Witness for C6: a region whose Overlay store is Unavailable falls
through to the FileMmap bytes; the read command over an empty address
space prints nothing and returns 0. -/
theorem claim_C6_witness :
    exC6region.read 0 2 .All = .bytes [7, 7] ∧
    readCmdRun exC6space 0x10 0x20 .All = ⟨0, 0, 0, false⟩ :=
  claim_C6 exC6region exC6s1 exC6s2 [7, 7] 0 2 .All exC6space 0x10 0x20
    rfl rfl rfl rfl rfl (by decide) (fun _ => rfl)

/-- Claim C7: the read command masks the queried address with the
architecture valid-address-bits mask before region lookup, so two
addresses equal modulo the mask resolve to the same region and produce
the same command outcome. -/
theorem claim_C7 (sp : AddressSpace) (a₁ a₂ e0 : Nat) (mode : ReadMode)
    (h : a₁ &&& sp.vabitsMask = a₂ &&& sp.vabitsMask) :
    findLoadBlock sp (a₁ &&& sp.vabitsMask) = findLoadBlock sp (a₂ &&& sp.vabitsMask) ∧
    readCmdRun sp a₁ e0 mode = readCmdRun sp a₂ e0 mode := by
  refine ⟨by rw [h], ?_⟩
  unfold readCmdRun
  rw [h]

/-- Witness for C7: with an 8-bit mask, 0x134 and 0x34 are equal modulo
the mask and the command behaves identically on both. -/
theorem claim_C7_witness :
    findLoadBlock exC7space (0x134 &&& exC7space.vabitsMask) =
      findLoadBlock exC7space (0x34 &&& exC7space.vabitsMask) ∧
    readCmdRun exC7space 0x134 0x40 .All = readCmdRun exC7space 0x34 0x40 .All :=
  claim_C7 exC7space 0x134 0x34 0x40 .All (by decide)

/-- Claim C8: for end > begin, the allocation word count of the read
command (RoundUp(RoundUp(end - begin, 8) / 8, 2) 8-byte words) comes to
the requested length rounded up to a multiple of 16 bytes — at least the
requested length, less than 16 bytes more, and divisible by 16. -/
theorem claim_C8 (b e : Nat) (h : b < e) :
    cmdCount b e * 8 = 16 * ((e - b + 15) / 16) ∧
    e - b ≤ cmdCount b e * 8 ∧
    cmdCount b e * 8 < (e - b) + 16 ∧
    cmdCount b e * 8 % 16 = 0 := by
  have heq : cmdCount b e * 8 = 16 * ((e - b + 15) / 16) := by
    unfold cmdCount roundUpN
    have h8 : (e - b + 8 - 1) = (e - b) + 7 := by omega
    have h2 : ((e - b + 7) / 8 + 2 - 1) = (e - b + 7) / 8 + 1 := by omega
    rw [h8, Nat.mul_div_cancel _ (by norm_num : (0:Nat) < 8), h2]
    have h3 : (e - b + 7) / 8 + 1 = (e - b + 15) / 8 := by
      have := Nat.add_div_right (e - b + 7) (show 0 < 8 by norm_num)
      omega
    have h4 : (e - b + 15) / 16 = (e - b + 15) / 8 / 2 := by
      rw [Nat.div_div_eq_div_mul]
    rw [h3, h4]
    ring
  refine ⟨heq, ?_, ?_, ?_⟩
  · rw [heq]
    have hdm := Nat.div_add_mod (e - b + 15) 16
    have hmod : (e - b + 15) % 16 < 16 := Nat.mod_lt _ (by norm_num)
    omega
  · rw [heq]
    have hdm := Nat.div_add_mod (e - b + 15) 16
    have hmod : (e - b + 15) % 16 < 16 := Nat.mod_lt _ (by norm_num)
    omega
  · rw [heq]
    exact Nat.mul_mod_right 16 _

/-- Witness for C8 at begin 0x1000, end 0x1009: a 9-byte request allocates
and reads 16 bytes. -/
theorem claim_C8_witness :
    cmdCount 0x1000 0x1009 * 8 = 16 * ((0x1009 - 0x1000 + 15) / 16) ∧
    0x1009 - 0x1000 ≤ cmdCount 0x1000 0x1009 * 8 ∧
    cmdCount 0x1000 0x1009 * 8 < (0x1009 - 0x1000) + 16 ∧
    cmdCount 0x1000 0x1009 * 8 % 16 = 0 :=
  claim_C8 0x1000 0x1009 (by norm_num)

/-- Claim C10: when none of the --app / --zygote / --image / --fake flags
is given, TopCommand::prepare enables all four object categories, the same
flag word as passing all four flags explicitly — for any values of the
four category constants. -/
theorem claim_C10 (cApp cZygote cImage cFake : Nat) :
    objEachFlags cApp cZygote cImage cFake false false false false =
      objEachFlags cApp cZygote cImage cFake true true true true ∧
    objEachFlags cApp cZygote cImage cFake false false false false =
      (((0 ||| cApp) ||| cZygote) ||| cImage) ||| cFake := by
  constructor
  · simp [objEachFlags]
  · simp [objEachFlags]

/-! ## Lemmas about the top-command selection scan -/

/-- Unfolding of the scan over a non-empty map. -/
lemma selectMax_cons (ord : OrderBy) (init a : Nat × TopPair) (l : List (Nat × TopPair)) :
    selectMax ord init (a :: l) = selectMax ord (selStep ord init a) l := rfl

/-- One comparison step never decreases the running maximum's metric. -/
lemma selStep_left_le (ord : OrderBy) (best kv : Nat × TopPair) :
    orderMetric ord best.2 ≤ orderMetric ord (selStep ord best kv).2 := by
  unfold selStep
  split
  · assumption
  · exact le_refl _

/-- One comparison step's result dominates the candidate's metric. -/
lemma selStep_right_le (ord : OrderBy) (best kv : Nat × TopPair) :
    orderMetric ord kv.2 ≤ orderMetric ord (selStep ord best kv).2 := by
  unfold selStep
  split
  · exact le_refl _
  · next h => exact le_of_not_le h

/-- The scan's result dominates the metric of its starting value. -/
lemma selectMax_init_le (ord : OrderBy) (l : List (Nat × TopPair)) :
    ∀ init, orderMetric ord init.2 ≤ orderMetric ord (selectMax ord init l).2 := by
  induction l with
  | nil => intro init; exact le_refl _
  | cons a l ih =>
    intro init
    rw [selectMax_cons]
    exact le_trans (selStep_left_le ord init a) (ih (selStep ord init a))

/-- The scan's result dominates the metric of every map entry. -/
lemma selectMax_ge_mem (ord : OrderBy) (l : List (Nat × TopPair)) :
    ∀ init kv, kv ∈ l → orderMetric ord kv.2 ≤ orderMetric ord (selectMax ord init l).2 := by
  induction l with
  | nil => intro init kv h; exact absurd h (List.not_mem_nil kv)
  | cons a l ih =>
    intro init kv h
    rw [selectMax_cons]
    rcases List.mem_cons.mp h with rfl | h'
    · exact le_trans (selStep_right_le ord init kv) (selectMax_init_le ord l _)
    · exact ih _ kv h'

/-- The scan's result is either the starting value or an entry of the map. -/
lemma selectMax_mem (ord : OrderBy) (l : List (Nat × TopPair)) :
    ∀ init, selectMax ord init l = init ∨ selectMax ord init l ∈ l := by
  induction l with
  | nil => intro init; left; rfl
  | cons a l ih =>
    intro init
    rw [selectMax_cons]
    rcases ih (selStep ord init a) with h | h
    · rw [h]
      unfold selStep
      split
      · right; exact List.mem_cons_self a l
      · left; rfl
    · right; exact List.mem_cons_of_mem a h

/-- Every printed row comes from the class map it was selected from. -/
lemma topRows_subset (ord : OrderBy) :
    ∀ (n : Nat) (classes : List (Nat × TopPair)) (row : Nat × TopPair),
      row ∈ topRows ord n classes → row ∈ classes := by
  intro n
  induction n with
  | zero => intro classes row h; simp [topRows] at h
  | succ n ih =>
    intro classes row h
    simp only [topRows] at h
    by_cases hb : (selectMax ord (0, zeroPair) classes).1 = 0
    · simp [hb] at h
    · simp only [hb, if_false] at h
      rcases List.mem_cons.mp h with rfl | h'
      · rcases selectMax_mem ord classes (0, zeroPair) with he | hm
        · exact absurd (congrArg Prod.fst he) hb
        · exact hm
      · exact List.mem_of_mem_filter (ih _ _ h')

/-- At most the requested number of rows is printed. -/
lemma topRows_length (ord : OrderBy) :
    ∀ (n : Nat) (classes : List (Nat × TopPair)),
      (topRows ord n classes).length ≤ n := by
  intro n
  induction n with
  | zero => intro classes; simp [topRows]
  | succ n ih =>
    intro classes
    simp only [topRows]
    by_cases hb : (selectMax ord (0, zeroPair) classes).1 = 0
    · simp [hb]
    · simp only [hb, if_false, List.length_cons]
      exact Nat.succ_le_succ (ih _)

/-- The printed rows carry pairwise-distinct class pointers. -/
lemma topRows_nodup (ord : OrderBy) :
    ∀ (n : Nat) (classes : List (Nat × TopPair)),
      List.Pairwise (fun a b : Nat × TopPair => a.1 ≠ b.1) (topRows ord n classes) := by
  intro n
  induction n with
  | zero => intro classes; simp [topRows]
  | succ n ih =>
    intro classes
    simp only [topRows]
    by_cases hb : (selectMax ord (0, zeroPair) classes).1 = 0
    · simp [hb]
    · simp only [hb, if_false]
      refine List.Pairwise.cons ?_ (ih _)
      intro row hrow
      have hmem := topRows_subset ord n _ row hrow
      have hf := List.of_mem_filter hmem
      intro hc
      rw [← hc] at hf
      simp at hf

/-- The selected metric is non-increasing from each printed row to the
next. -/
lemma topRows_sorted (ord : OrderBy) :
    ∀ (n : Nat) (classes : List (Nat × TopPair)),
      List.Chain' (fun a b => orderMetric ord b.2 ≤ orderMetric ord a.2)
        (topRows ord n classes) := by
  intro n
  induction n with
  | zero => intro classes; simp [topRows]
  | succ n ih =>
    intro classes
    simp only [topRows]
    by_cases hb : (selectMax ord (0, zeroPair) classes).1 = 0
    · simp [hb]
    · simp only [hb, if_false]
      rw [List.chain'_cons']
      refine ⟨?_, ih _⟩
      intro row hrow
      have hmem : row ∈ topRows ord n (classes.filter
          (fun kv => kv.1 != (selectMax ord (0, zeroPair) classes).1)) :=
        List.mem_of_mem_head? hrow
      have hcls : row ∈ classes :=
        List.mem_of_mem_filter (topRows_subset ord n _ row hmem)
      exact selectMax_ge_mem ord classes (0, zeroPair) row hcls

/-- Claim C9: every run of the top command prints pairwise-distinct
classes (each printed class is erased before the next selection), the
selected metric is non-increasing from each printed row to the next, and
at most NUM rows are printed. -/
theorem claim_C9 (ord : OrderBy) (n : Nat) (classes : List (Nat × TopPair)) :
    (topRows ord n classes).length ≤ n ∧
    List.Pairwise (fun a b : Nat × TopPair => a.1 ≠ b.1) (topRows ord n classes) ∧
    List.Chain' (fun a b => orderMetric ord b.2 ≤ orderMetric ord a.2)
      (topRows ord n classes) :=
  ⟨topRows_length ord n classes, topRows_nodup ord n classes,
    topRows_sorted ord n classes⟩

/-- Claim C3: a read whose requested range starts inside a region but
extends past its end is clamped to the region's remaining extent — only
bytes of the owning region are consulted, never a second region — and a
read starting at the region end, where no region covers the address, is a
Miss. -/
theorem claim_C3 (sp : AddressSpace) (addr len : Nat) (r : MemoryRegion)
    (mode : ReadMode)
    (hfind : findLoadBlock sp addr = some r)
    (hcross : r.vaddr + r.size < addr + len)
    (hnext : findLoadBlock sp (r.vaddr + r.size) = none) :
    sp.read addr len mode = r.read (addr - r.vaddr) (r.vaddr + r.size - addr) mode ∧
    ∀ restLen, sp.read (r.vaddr + r.size) restLen mode = .miss := by
  have hp : containsAddr r addr = true := by
    have h := hfind
    unfold findLoadBlock at h
    have hp0 := List.find?_some h
    simpa using hp0
  have h1 : r.vaddr ≤ addr ∧ addr < r.vaddr + r.size := by
    simpa [containsAddr] using hp
  constructor
  · unfold AddressSpace.read
    rw [hfind]
    have hmin : min len (r.size - (addr - r.vaddr)) = r.vaddr + r.size - addr := by
      omega
    show r.read (addr - r.vaddr) (min len (r.size - (addr - r.vaddr))) mode =
      r.read (addr - r.vaddr) (r.vaddr + r.size - addr) mode
    rw [hmin]
  · intro restLen
    unfold AddressSpace.read
    rw [hnext]

/-- Witness for C3: one region [0x1000, 0x2000) backed by Origin bytes
0xAA repeated; a 16-byte read at 0x1ff8 yields only the 8 bytes up to the
region end, and the remainder read at 0x2000 is a Miss. -/
theorem claim_C3_witness :
    exC3space.read 0x1ff8 16 .All = .bytes (List.replicate 8 0xAA) ∧
    exC3space.read 0x2000 8 .All = .miss := by
  have h := claim_C3 exC3space 0x1ff8 16 exC3region .All rfl (by decide) rfl
  refine ⟨?_, h.2 8⟩
  rw [h.1]
  decide

/-- Claim C4: the NOTE segment of a synthesized core is emitted in fixed
order — one process-status record per captured thread in snapshot
enumeration order, then the auxiliary-vector record, then the mapped-file
table record with one entry per region that has an associated file — the
whole segment being independent of the Include / Exclude classification,
and padded up to the next segment alignment boundary. -/
theorem claim_C4 (snap : Snapshot) (cl cl' : VirtualMemoryArea → Classification) :
    (doCoredump snap cl).noteRecs = (doCoredump snap cl').noteRecs ∧
    (doCoredump snap cl).noteRecs =
      snap.threads.map (fun t => NoteRecord.prstatus t.tid t.regs) ++
        [NoteRecord.auxvRec snap.auxv, NoteRecord.ntfile (ntFileEntries snap.vmas)] ∧
    List.Forall₂
      (fun v e => e.startAddr = v.vaddr ∧ e.endAddr = v.vaddr + v.content.length ∧
        e.fileOfs = v.fileOffset ∧ e.name = v.file.getD "")
      (snap.vmas.filter hasFile) (ntFileEntries snap.vmas) ∧
    (doCoredump snap cl).noteSize % pageSize = 0 ∧
    noteRawSize snap ≤ (doCoredump snap cl).noteSize := by
  refine ⟨rfl, ?_, ?_, ?_, ?_⟩
  · simp [doCoredump, noteSegmentRecords, writeCorePrStatus, writeCoreAuxv, writeNtFile]
  · unfold ntFileEntries
    rw [List.forall₂_map_right_iff, List.forall₂_same]
    intro v _
    exact ⟨rfl, rfl, rfl, rfl⟩
  · show noteSegSize snap % pageSize = 0
    unfold noteSegSize alignUp
    exact Nat.mul_mod_left _ _
  · show noteRawSize snap ≤ noteSegSize snap
    exact le_alignUp _ _ (by norm_num [pageSize])

/-- Unfolding of the segment layout at an Include mapping. -/
lemma synthSegments_cons_include (cl : VirtualMemoryArea → Classification)
    (off : Nat) (v : VirtualMemoryArea) (rest : List VirtualMemoryArea)
    (hv : cl v = Classification.Include) :
    synthSegments cl off (v :: rest) =
      (⟨alignUp off pageSize, v.vaddr, v.content.length, v.content.length, v.flags⟩ ::
         (synthSegments cl (alignUp off pageSize + v.content.length) rest).1,
       List.replicate (alignUp off pageSize - off) 0 ++ v.content ++
         (synthSegments cl (alignUp off pageSize + v.content.length) rest).2) := by
  simp [synthSegments, hv]

/-- Dropping a region that does not contain the queried address from the
front of the region list leaves the lookup and read unchanged. -/
lemma addressSpace_read_cons_of_neg (r : MemoryRegion) (rs : List MemoryRegion)
    (mask addr len : Nat) (mode : ReadMode)
    (h : containsAddr r addr = false) :
    AddressSpace.read ⟨r :: rs, mask⟩ addr len mode =
      AddressSpace.read ⟨rs, mask⟩ addr len mode := by
  unfold AddressSpace.read findLoadBlock
  simp only []
  rw [List.find?_cons_of_neg _ (by simp [h])]

/-- Loading the LOAD segments synthesized from a run of Include mappings
(laid out from file offset `off`, after an arbitrary prefix of that length)
gives back, for every mapping, exactly the captured content bytes. -/
lemma parse_read_include (cl : VirtualMemoryArea → Classification) (mask : Nat) :
    ∀ (vmas : List VirtualMemoryArea) (off : Nat) (pre : List Nat),
      pre.length = off →
      (∀ v ∈ vmas, cl v = Classification.Include) →
      List.Pairwise (fun a b => a.vaddr + a.content.length ≤ b.vaddr) vmas →
      (∀ v ∈ vmas, 0 < v.content.length) →
      ∀ v ∈ vmas,
        AddressSpace.read
          ⟨((synthSegments cl off vmas).1).map
             (regionOfPhdr (pre ++ (synthSegments cl off vmas).2)), mask⟩
          v.vaddr v.content.length .All = .bytes v.content := by
  intro vmas
  induction vmas with
  | nil => intro off pre _ _ _ _ v hv; exact absurd hv (List.not_mem_nil v)
  | cons w rest ih =>
    intro off pre hpre hinc hpw hpos v hv
    have hw : cl w = Classification.Include := hinc w (List.mem_cons_self w rest)
    have hoff : off ≤ alignUp off pageSize :=
      le_alignUp off pageSize (by norm_num [pageSize])
    rw [synthSegments_cons_include cl off w rest hw]
    dsimp only
    have hassoc :
        pre ++ (List.replicate (alignUp off pageSize - off) 0 ++ w.content ++
            (synthSegments cl (alignUp off pageSize + w.content.length) rest).2) =
          (pre ++ List.replicate (alignUp off pageSize - off) 0) ++
            (w.content ++
              (synthSegments cl (alignUp off pageSize + w.content.length) rest).2) := by
      simp [List.append_assoc]
    have hprelen : (pre ++ List.replicate (alignUp off pageSize - off) 0).length =
        alignUp off pageSize := by
      simp [hpre]
      omega
    rcases List.mem_cons.mp hv with rfl | hv'
    · -- the queried mapping is the first one
      have hvpos : 0 < v.content.length := hpos v (List.mem_cons_self v rest)
      have hcont : containsAddr
          (regionOfPhdr
            (pre ++ (List.replicate (alignUp off pageSize - off) 0 ++ v.content ++
              (synthSegments cl (alignUp off pageSize + v.content.length) rest).2))
            ⟨alignUp off pageSize, v.vaddr, v.content.length, v.content.length, v.flags⟩)
          v.vaddr = true := by
        simp [containsAddr, regionOfPhdr]
        omega
      unfold AddressSpace.read findLoadBlock
      dsimp only
      rw [List.map_cons, List.find?_cons_of_pos _ (by exact hcont)]
      dsimp only
      show (regionOfPhdr _ _).read (v.vaddr - v.vaddr)
          (min v.content.length (v.content.length - (v.vaddr - v.vaddr))) .All =
        ReadResult.bytes v.content
      rw [Nat.sub_self]
      rw [Nat.sub_zero, Nat.min_self]
      show (if v.content.length < 0 + v.content.length then ReadResult.miss
        else firstOk _) = ReadResult.bytes v.content
      rw [if_neg (by omega)]
      dsimp only [regionOfPhdr, List.filter, modeAllows]
      show firstOk [if 0 + v.content.length ≤ v.content.length then
          StoreResult.ok ((List.drop (alignUp off pageSize + 0)
            (pre ++ (List.replicate (alignUp off pageSize - off) 0 ++ v.content ++
              (synthSegments cl (alignUp off pageSize + v.content.length) rest).2))).take
            v.content.length)
        else StoreResult.unavailable] = ReadResult.bytes v.content
      rw [if_pos (by omega), Nat.add_zero]
      have hext : (List.drop (alignUp off pageSize)
          (pre ++ (List.replicate (alignUp off pageSize - off) 0 ++ v.content ++
            (synthSegments cl (alignUp off pageSize + v.content.length) rest).2))).take
          v.content.length = v.content := by
        rw [hassoc, List.drop_left' hprelen]
        exact List.take_left v.content _
      rw [hext]
      rfl
    · -- the queried mapping lies further down the list
      have hsep : w.vaddr + w.content.length ≤ v.vaddr :=
        (List.pairwise_cons.mp hpw).1 v hv'
      have hcont : containsAddr
          (regionOfPhdr
            (pre ++ (List.replicate (alignUp off pageSize - off) 0 ++ w.content ++
              (synthSegments cl (alignUp off pageSize + w.content.length) rest).2))
            ⟨alignUp off pageSize, w.vaddr, w.content.length, w.content.length, w.flags⟩)
          v.vaddr = false := by
        simp [containsAddr, regionOfPhdr]
        omega
      rw [List.map_cons, addressSpace_read_cons_of_neg _ _ _ _ _ _ hcont]
      rw [hassoc, ← List.append_assoc]
      exact ih (alignUp off pageSize + w.content.length)
        (pre ++ List.replicate (alignUp off pageSize - off) 0 ++ w.content)
        (by simp [hpre]; omega)
        (fun x hx => hinc x (List.mem_cons_of_mem w hx))
        (List.pairwise_cons.mp hpw).2
        (fun x hx => hpos x (List.mem_cons_of_mem w hx)) v hv'

/-- Claim C2: for a snapshot in which every region is classified Include,
synthesizing a core file and loading the result through the same Address
Space parser yields, for every region, memory bytes identical to the
direct reads from the original target (the captured content). -/
theorem claim_C2 (snap : Snapshot) (cl : VirtualMemoryArea → Classification)
    (mask : Nat)
    (hinc : ∀ v ∈ snap.vmas, cl v = Classification.Include)
    (hsep : List.Pairwise (fun a b => a.vaddr + a.content.length ≤ b.vaddr) snap.vmas)
    (hpos : ∀ v ∈ snap.vmas, 0 < v.content.length) :
    ∀ v ∈ snap.vmas,
      (parseCore (doCoredump snap cl) mask).read v.vaddr v.content.length .All =
        .bytes v.content := by
  intro v hv
  have h := parse_read_include cl mask snap.vmas (headerLen snap cl)
    (List.replicate (headerLen snap cl) 0) (List.length_replicate _ _)
    hinc hsep hpos v hv
  simpa [parseCore, doCoredump] using h

/-- Witness for C2 at a concrete two-region snapshot: both regions read
back their captured bytes after the synthesize-then-parse round trip. -/
theorem claim_C2_witness :
    (parseCore (doCoredump exC2snap exC2cl) 0xFFFFFFFFFF).read 0x1000 2 .All =
      .bytes [0xAA, 0xBB] ∧
    (parseCore (doCoredump exC2snap exC2cl) 0xFFFFFFFFFF).read 0x3000 3 .All =
      .bytes [1, 2, 3] := by
  have h := claim_C2 exC2snap exC2cl 0xFFFFFFFFFF
    (fun _ _ => rfl) (by decide) (by decide)
  exact ⟨h exC2vmaA (by decide), h exC2vmaB (by decide)⟩
